import Mathlib

/-!
Verification development for the real-time market-event distribution core of
the token-discovery dashboard (source poller, webhook ingest, dedup filter,
broadcast publisher, subscription manager, time-series chart buffer).

The TypeScript source is shallowly embedded:

* JavaScript numbers are modelled as elements of a linear ordered field
  (instantiated at the rationals for executable checks and at the reals,
  with the genuine sine function, where the transcendental behaviour of
  Math.sin matters);
* the wall clock (Date.now) and Math.random are explicit parameters;
* ISO timestamp strings are represented by their underlying millisecond
  value, since toISOString is injective on milliseconds;
* JavaScript truthiness of optional strings and numbers (undefined, the
  empty string and 0 are falsy) is modelled explicitly.
-/

/-! ## JavaScript helpers -/

/-- Truthiness of an optional string: undefined and the empty string are falsy. -/
def jsStrFalsy (o : Option String) : Bool :=
  match o with
  | none => true
  | some s => s.isEmpty

/-- The JavaScript `a || b` operator on optional strings. -/
def jsOrStr (a b : Option String) : Option String :=
  if jsStrFalsy a then b else a

/-- Truthiness of an optional number: undefined and 0 are falsy. -/
def jsNumFalsy (o : Option ℚ) : Bool :=
  match o with
  | none => true
  | some q => q = 0

/-- The JavaScript `a || b` operator on optional numbers. -/
def jsOrNum (a b : Option ℚ) : Option ℚ :=
  if jsNumFalsy a then b else a

/-- The JavaScript `a || d` default for an optional number against a literal. -/
def jsNumDefault (a : Option ℚ) (d : ℚ) : ℚ :=
  match jsOrNum a (some d) with
  | some q => q
  | none => d

/-- The JavaScript `a || d` default for an optional string against a literal. -/
def jsStrDefault (a : Option String) (d : String) : String :=
  match jsOrStr a (some d) with
  | some s => s
  | none => d

/-- `String.toUpperCase` of JavaScript, character by character. -/
def jsToUpperCase (s : String) : String :=
  String.mk (s.data.map Char.toUpper)

/-! ## Producer payloads (scripts/mobula-poller.ts, app/api/broadcast/route.ts)

`MobulaToken` is the provider-shaped candidate record of the poller script;
every field is optional, matching the TypeScript interface. Numeric fields
are rationals. -/

structure MobulaToken where
  id : Option String := none
  address : Option String := none
  symbol : Option String := none
  name : Option String := none
  price : Option ℚ := none
  priceChange24h : Option ℚ := none
  volume : Option ℚ := none
  volume24h : Option ℚ := none
  marketCap : Option ℚ := none
  market_cap : Option ℚ := none
  liquidity : Option ℚ := none
  holders : Option ℚ := none
  blockchain : Option String := none
  logo : Option String := none
  image : Option String := none
  createdAt : Option String := none
deriving DecidableEq, Repr

/-- The identifier a poller candidate is deduplicated under:
`const tokenId = token.id || token.address` followed by the
`if (!tokenId) continue` falsiness guard. `none` means the candidate has
no usable identifier and is skipped. -/
def dedupId (t : MobulaToken) : Option String :=
  match jsOrStr t.id t.address with
  | none => none
  | some s => if s.isEmpty then none else some s

/-- Which producer fired a broadcast: the polling script or the webhook route. -/
inductive Origin where
  | poller
  | webhook
deriving DecidableEq, Repr

/-- Server-side pipeline state: the process-lifetime set of seen identifiers
(`seenTokenIds`, represented as a duplicate-free list) and the log of
`token.created` publishes, each tagged with its producer and the identifier
it announced. -/
structure PipelineState where
  seen : List String
  published : List (Origin × String)
deriving DecidableEq, Repr

def pipelineInit : PipelineState := ⟨[], []⟩

/-- One iteration of the `for (const token of tokens)` loop of
`pollAndBroadcast`: skip identifier-less candidates, skip already-seen
identifiers, otherwise mark seen and broadcast. -/
def pollToken (s : PipelineState) (t : MobulaToken) : PipelineState :=
  match dedupId t with
  | none => s
  | some tid =>
    if tid ∈ s.seen then s
    else { seen := tid :: s.seen,
           published := s.published ++ [(Origin.poller, tid)] }

/-- `pollAndBroadcast` applied to the candidate list returned by one fetch. -/
def pollAndBroadcast (s : PipelineState) (tokens : List MobulaToken) : PipelineState :=
  tokens.foldl pollToken s

/-- The loop body of `initializeSeenTokens`: record the identifier as seen,
broadcast nothing. -/
def initSeenStep (st : PipelineState) (t : MobulaToken) : PipelineState :=
  match dedupId t with
  | none => st
  | some tid =>
    if tid ∈ st.seen then st else { st with seen := tid :: st.seen }

/-- `initializeSeenTokens`: the cold-start pass that records every returned
identifier as seen without broadcasting anything. -/
def initializeSeenTokens (s : PipelineState) (tokens : List MobulaToken) : PipelineState :=
  tokens.foldl initSeenStep s

/-- The identifiers contributed by a startup fetch. -/
def startupIds (tokens : List MobulaToken) : List String :=
  tokens.filterMap dedupId

/-! ## Webhook ingest (app/api/broadcast/route.ts) -/

/-- The raw webhook body: `body.data || body` picks the `data` member when it
is present (a JSON object is always truthy) and otherwise falls back to the
body object itself, whose own fields are read with the same shape. The
token-shaped fields reuse `MobulaToken` plus the extra `chain` member the
route consults. -/
structure WebhookTokenData where
  fields : MobulaToken := {}
  chain : Option String := none
deriving DecidableEq, Repr

structure WebhookBody where
  data : Option WebhookTokenData := none
  top : WebhookTokenData := {}
deriving DecidableEq, Repr

/-- The canonical event payload built by both producers before publishing. -/
structure BroadcastToken where
  id : String
  symbol : String
  name : String
  price : ℚ
  priceChange24h : ℚ
  volume24h : ℚ
  marketCap : ℚ
  liquidity : ℚ
  holders : ℚ
  chain : String
  logo : String
  category : String
deriving DecidableEq, Repr

/-- The normalization performed by `POST /api/broadcast`: `now` stands for
`Date.now()` (used when no identifier is present) and `rand` for
`Math.floor(Math.random() * 10000)` (used when `holders` is absent). -/
def webhookEvent (now : ℤ) (rand : ℚ) (body : WebhookBody) : BroadcastToken :=
  let tokenData := body.data.getD body.top
  let t := tokenData.fields
  { id := jsStrDefault (jsOrStr t.id t.address) (toString now)
    symbol := jsStrDefault ((t.symbol.map jsToUpperCase)) ("UNKNOWN")
    name := jsStrDefault t.name ("New Token")
    price := jsNumDefault t.price 0
    priceChange24h := jsNumDefault t.priceChange24h 0
    volume24h := jsNumDefault (jsOrNum t.volume24h t.volume) 0
    marketCap := jsNumDefault (jsOrNum t.marketCap t.market_cap) 0
    liquidity := jsNumDefault t.liquidity ((jsNumDefault t.volume24h 0) * (3/10))
    holders := jsNumDefault t.holders rand
    chain := jsStrDefault (jsOrStr t.blockchain tokenData.chain) ("solana")
    logo := jsStrDefault (jsOrStr t.logo t.image) ("")
    category := ("new") }

/-- The token-shaped record the route reads its fields from:
`const tokenData = body.data || body`. -/
def webhookTokenFields (body : WebhookBody) : MobulaToken :=
  (body.data.getD body.top).fields

/-- The structured JSON reply of the webhook route. -/
structure RouteResponse where
  status : ℕ
  success : Bool
deriving DecidableEq, Repr

/-- `POST /api/broadcast`, given the publish outcome of `pusher.trigger`
(`pubOk = false` models a broker failure thrown inside the `try` block):
the list of events actually fired together with the HTTP reply. -/
def postBroadcast (pubOk : Bool) (now : ℤ) (rand : ℚ) (body : WebhookBody) :
    List BroadcastToken × RouteResponse :=
  if pubOk then ([webhookEvent now rand body], ⟨200, true⟩)
  else ([], ⟨500, false⟩)

/-! ## Combined producer pipeline

The poller script and the webhook route both end in
`pusher.trigger('pulse', 'token.created', ...)`. A pipeline input is either
one poll cycle (the candidate list a fetch returned) or one webhook request. -/

inductive PipelineInput where
  | poll (tokens : List MobulaToken)
  | webhook (now : ℤ) (rand : ℚ) (body : WebhookBody)
deriving DecidableEq, Repr

/-- One pipeline step. The webhook route never consults or updates
`seenTokenIds` (that set lives in the poller script); it publishes its
normalized event unconditionally. -/
def pipelineStep (s : PipelineState) : PipelineInput → PipelineState
  | .poll tokens => pollAndBroadcast s tokens
  | .webhook now rand body =>
    { s with published := s.published ++ [(Origin.webhook, (webhookEvent now rand body).id)] }

def runPipeline (s : PipelineState) (inputs : List PipelineInput) : PipelineState :=
  inputs.foldl pipelineStep s

/-- All identifiers ever published, in order. -/
def publishedIds (s : PipelineState) : List String :=
  s.published.map Prod.snd

/-- The identifiers published by the poller path only. -/
def pollerPublishedIds (s : PipelineState) : List String :=
  (s.published.filter (fun r => r.fst = Origin.poller)).map Prod.snd

/-- A sequence of poll cycles with no webhook traffic. -/
def runPolls (s : PipelineState) (cycles : List (List MobulaToken)) : PipelineState :=
  cycles.foldl pollAndBroadcast s

/-! ## Source adapter fetch (scripts/mobula-poller.ts)

A provider call either throws (network error, malformed JSON) or yields an
HTTP response with an `ok` flag and a parsed payload. -/

inductive ProviderResult (α : Type) where
  | fail (msg : String)
  | resp (ok : Bool) (payload : α)
deriving DecidableEq, Repr

/-- One DEXScreener pair, with the members the transform reads. -/
structure DexPair where
  pairAddress : Option String := none
  baseTokenAddress : Option String := none
  baseTokenSymbol : Option String := none
  baseTokenName : Option String := none
  priceUsd : Option ℚ := none
  priceChangeH24 : Option ℚ := none
  volumeH24 : Option ℚ := none
  liquidityUsd : Option ℚ := none
  fdv : Option ℚ := none
  imageUrl : Option String := none
  pairCreatedAt : Option String := none
deriving DecidableEq, Repr

/-- The DEXScreener-to-MobulaToken transform of `fetchNewlyCreatedTokens`. -/
def dexToMobula (p : DexPair) : MobulaToken :=
  { id := p.pairAddress
    address := p.baseTokenAddress
    symbol := p.baseTokenSymbol
    name := p.baseTokenName
    price := some (match p.priceUsd with | some q => q | none => 0)
    priceChange24h := some (jsNumDefault p.priceChangeH24 0)
    volume24h := some (jsNumDefault p.volumeH24 0)
    liquidity := some (jsNumDefault p.liquidityUsd 0)
    marketCap := some (jsNumDefault p.fdv 0)
    blockchain := some ("solana")
    logo := p.imageUrl
    createdAt := p.pairCreatedAt }

/-- One CoinGecko market entry, with the members the transform reads. -/
structure CGCoin where
  id : Option String := none
  symbol : Option String := none
  name : Option String := none
  current_price : Option ℚ := none
  price_change_percentage_24h : Option ℚ := none
  total_volume : Option ℚ := none
  market_cap : Option ℚ := none
  image : Option String := none
deriving DecidableEq, Repr

/-- The CoinGecko-to-MobulaToken transform of `fetchFromCoinGecko`;
`rand i` models the `Math.floor(Math.random() * 10000)` drawn for the i-th
coin and `nowIso` the `new Date().toISOString()` stamp. -/
def cgToMobula (rand : ℕ → ℚ) (nowIso : String) (i : ℕ) (c : CGCoin) : MobulaToken :=
  { id := c.id
    address := c.id
    symbol := c.symbol
    name := c.name
    price := some (jsNumDefault c.current_price 0)
    priceChange24h := some (jsNumDefault c.price_change_percentage_24h 0)
    volume24h := some (jsNumDefault c.total_volume 0)
    liquidity := some ((jsNumDefault c.total_volume 0) * (3/10))
    marketCap := some (jsNumDefault c.market_cap 0)
    holders := some (rand i)
    blockchain := some ("ethereum")
    logo := c.image
    createdAt := some nowIso }

/-- `fetchFromCoinGecko`: its own try/catch turns a thrown error into `[]`,
a non-OK status into `[]`, and a good response into the transformed list.
The result type records that the source function could in principle
propagate an exception (`Except.error`), which it never does. -/
def fetchFromCoinGecko (rand : ℕ → ℚ) (nowIso : String)
    (r : ProviderResult (List CGCoin)) : Except String (List MobulaToken) :=
  match r with
  | .fail _ => .ok []
  | .resp ok payload =>
    if ok then
      .ok ((payload.enum.map (fun ci => cgToMobula rand nowIso ci.fst ci.snd)))
    else .ok []

/-- Does the primary (DEXScreener) call count as failed: thrown error,
non-OK status, or an empty / missing `pairs` array. -/
def dexFailed (r : ProviderResult (Option (List DexPair))) : Bool :=
  match r with
  | .fail _ => true
  | .resp ok payload => !ok || (payload.getD []).isEmpty

/-- `fetchNewlyCreatedTokens`: DEXScreener first (`data.pairs || []`,
`slice(0, 20)`), falling back to CoinGecko on a thrown error, a non-OK
status, or an empty pair list. -/
def fetchNewlyCreatedTokens (dex : ProviderResult (Option (List DexPair)))
    (rand : ℕ → ℚ) (nowIso : String) (cg : ProviderResult (List CGCoin)) :
    Except String (List MobulaToken) :=
  match dex with
  | .fail _ => fetchFromCoinGecko rand nowIso cg
  | .resp ok payload =>
    if ok then
      let pairs := payload.getD []
      if 0 < pairs.length then .ok ((pairs.take 20).map dexToMobula)
      else fetchFromCoinGecko rand nowIso cg
    else fetchFromCoinGecko rand nowIso cg

/-! ## Instrument record (store/tokensSlice.ts) and chart buffer
(hooks/use-live-chart-data.ts)

The chart code does arithmetic on JavaScript numbers through `Math.sin` and
`Math.PI`, so it is embedded generically over a linear ordered field `K`
together with a sine function and a circle constant; theorems instantiate
`K := ℚ` (executable) or `K := ℝ` with `Real.sin` and `Real.pi` (the ideal
reading of `Math.sin` / `Math.PI`). -/

structure Token (K : Type) where
  id : String
  symbol : String
  name : String
  price : K
  priceChange24h : K
  volume24h : K
  marketCap : K
  liquidity : K
  holders : Option K := none
  logo : Option String := none
  chain : String
  category : Option String := none
  isFavorite : Option Bool := none
deriving DecidableEq, Repr

/-- A chart point; the ISO `time` string is represented by its millisecond
timestamp (`toISOString` is injective on milliseconds). -/
structure ChartDataPoint (K : Type) where
  time : ℤ
  value : K
deriving DecidableEq, Repr

/-- Parse an unsigned integer as the longest prefix of digits recognised by
`digitVal`; `none` when no digit is present (JavaScript NaN). -/
def parseUnsigned (digitVal : Char → Option ℕ) (base : ℕ) (cs : List Char) : Option ℕ :=
  let ds := cs.takeWhile (fun c => (digitVal c).isSome)
  if ds.isEmpty then none
  else some (ds.foldl (fun n c => n * base + ((digitVal c).getD 0)) 0)

def decDigitVal (c : Char) : Option ℕ :=
  if c.isDigit then some (c.toNat - 48) else none

def hexDigitVal (c : Char) : Option ℕ :=
  if c.isDigit then some (c.toNat - 48)
  else if ('a') ≤ c ∧ c ≤ ('f') then some (c.toNat - 87)
  else if ('A') ≤ c ∧ c ≤ ('F') then some (c.toNat - 55)
  else none

/-- JavaScript `parseInt(s)` with no radix argument: skip leading
whitespace, optional sign, `0x`/`0X` switches to hexadecimal, then the
longest digit prefix; `none` models NaN. -/
def jsParseInt (s : String) : Option ℤ :=
  let cs := s.toList.dropWhile (fun c => c.isWhitespace)
  let sgn : ℤ := match cs with | ('-') :: _ => -1 | _ => 1
  let cs := match cs with
    | ('-') :: r => r
    | ('+') :: r => r
    | r => r
  match cs with
  | ('0') :: ('x') :: r => (parseUnsigned hexDigitVal 16 r).map (fun n => sgn * n)
  | ('0') :: ('X') :: r => (parseUnsigned hexDigitVal 16 r).map (fun n => sgn * n)
  | r => (parseUnsigned decDigitVal 10 r).map (fun n => sgn * n)

/-- `symbol.charCodeAt(0)`. On the empty string the source yields NaN, which
never occurs for the instruments handled here; it is modelled as 0. -/
def charCodeAt0 (s : String) : ℤ :=
  match s.toList with
  | [] => 0
  | c :: _ => (c.toNat : ℤ)

/-- `const tokenSeed = parseInt(token.id) || token.symbol.charCodeAt(0)`:
NaN and 0 are falsy, so any identifier without a leading numeric value
falls back to the first character code of the symbol. -/
def tokenSeedOf (id symbol : String) : ℤ :=
  match jsParseInt id with
  | some n => if n = 0 then charCodeAt0 symbol else n
  | none => charCodeAt0 symbol

/-- The body of the `for (let i = 0; i < dataPoints; i++)` loop of
`generateInitialData`. -/
def seedPoint {K : Type} [LinearOrderedField K] (sin : K → K) (pi : K) (now : ℤ)
    (startPrice currentPrice : K) (seed : ℤ) (dataPoints i : ℕ) : ChartDataPoint K :=
  let timeOffset : ℤ := ((dataPoints : ℤ) - (i : ℤ) - 1) * (60 * 60 * 1000)
  let time := now - timeOffset
  let progress : K := (i : K) / ((dataPoints : K) - 1)
  let smoothProgress : K :=
    if progress < 1/2 then 2 * progress * progress
    else 1 - ((-2) * progress + 2)^2 / 2
  let baseValue := startPrice + (currentPrice - startPrice) * smoothProgress
  let wave1 := sin (progress * pi * 2 + (seed : K)) * currentPrice * (8/1000)
  let wave2 := sin (progress * pi * 4 + (seed : K) * 2) * currentPrice * (4/1000)
  let value := baseValue + wave1 + wave2
  { time := time, value := max value (currentPrice * (1/2)) }

/-- `generateInitialData(token, dataPoints)`: the deterministic synthetic
history, anchored on `startPrice = currentPrice / (1 + change24h)` and
carrying two sine oscillations seeded from the identifier. -/
def generateInitialData {K : Type} [LinearOrderedField K] (sin : K → K) (pi : K)
    (now : ℤ) (token : Token K) (dataPoints : ℕ) : List (ChartDataPoint K) :=
  let currentPrice := token.price
  let change24h := token.priceChange24h / 100
  let startPrice := currentPrice / (1 + change24h)
  let tokenSeed := tokenSeedOf token.id token.symbol
  (List.range dataPoints).map
    (seedPoint sin pi now startPrice currentPrice tokenSeed dataPoints)

/-- `appendDataPoint`: append one point, then `shift()` the oldest point out
when the length exceeds `maxDataPoints`. -/
def appendDataPoint {α : Type} (maxDataPoints : ℕ) (l : List α) (dataPoint : α) : List α :=
  let updatedData := l ++ [dataPoint]
  if maxDataPoints < updatedData.length then updatedData.tail else updatedData

/-- The mutable refs of one `useLiveChartData` mount. -/
structure LiveChartState (K : Type) where
  chartData : List (ChartDataPoint K)
  lastPrice : K
  dataPoints : List (ChartDataPoint K)
  initializedToken : String
deriving DecidableEq, Repr

/-- Hook state right after mounting on `token`. -/
def liveChartInit {K : Type} (token : Token K) : LiveChartState K :=
  { chartData := [], lastPrice := token.price, dataPoints := [], initializedToken := "" }

/-- The init effect of `useLiveChartData`: seeds at most once per token
identifier (`initializedTokenRef.current !== token.id`). -/
def chartInitEffect {K : Type} [LinearOrderedField K] (sin : K → K) (pi : K)
    (now : ℤ) (initialDataPoints : ℕ) (s : LiveChartState K) (token : Token K) :
    LiveChartState K :=
  if s.initializedToken ≠ token.id then
    let initData := generateInitialData sin pi now token initialDataPoints
    { chartData := initData, lastPrice := token.price,
      dataPoints := initData, initializedToken := token.id }
  else s

/-- The price-change effect of `useLiveChartData`: appends one live point
(with the `appendDataPoint` eviction rule inlined in the source) when the
price moved. -/
def chartPriceEffect {K : Type} [LinearOrderedField K] (maxDataPoints : ℕ)
    (now : ℤ) (s : LiveChartState K) (token : Token K) : LiveChartState K :=
  if s.lastPrice = token.price then s
  else
    let newDataPoint : ChartDataPoint K := { time := now, value := token.price }
    let updatedData := appendDataPoint maxDataPoints s.dataPoints newDataPoint
    { s with chartData := updatedData, dataPoints := updatedData,
             lastPrice := token.price }

/-! ## Subscription manager (hooks/use-pusher-updates.ts)

The module-level singleton state of `usePusherTokenUpdates`, together with
instrumentation counters: `connects` counts `new Pusher(...)` constructions,
`disconnects` counts `pusherInstance.disconnect()` calls, and `stateBinds`
counts executions of the connection-state handler-binding block. A grace
timer scheduled by the cleanup is recorded in `pending` and fired later by
`fireTimer`; per the claims under study, all pending timers elapse after
the mount/unmount sequence has finished. -/

structure SubState where
  hasPusher : Bool
  handlersBound : Bool
  hasChannel : Bool
  count : ℕ
  pending : ℕ
  connects : ℕ
  disconnects : ℕ
  stateBinds : ℕ
deriving DecidableEq, Repr

def subInit : SubState :=
  { hasPusher := false, handlersBound := false, hasChannel := false,
    count := 0, pending := 0, connects := 0, disconnects := 0, stateBinds := 0 }

/-- The effect body of one hook mount: create the singleton connection if
absent (binding connection-state handlers exactly when not already bound),
bump the subscriber count, and subscribe the shared channel if absent. -/
def acquire (s : SubState) : SubState :=
  let s :=
    if s.hasPusher then s
    else
      { s with hasPusher := true, connects := s.connects + 1,
               stateBinds := if s.handlersBound then s.stateBinds else s.stateBinds + 1,
               handlersBound := true }
  let s := { s with count := s.count + 1 }
  if s.hasChannel then s else { s with hasChannel := true }

/-- The cleanup of one hook unmount: drop the subscriber count and, when it
reaches zero, schedule a 100 ms grace timer. -/
def release (s : SubState) : SubState :=
  let s := { s with count := s.count - 1 }
  if s.count = 0 then { s with pending := s.pending + 1 } else s

/-- One grace timer elapsing: tear the channel and the connection down only
if the subscriber count is still zero, guarded by the nullness checks of
the source. -/
def fireTimer (s : SubState) : SubState :=
  let s := { s with pending := s.pending - 1 }
  if s.count = 0 then
    let s := if s.hasChannel && s.hasPusher then { s with hasChannel := false } else s
    if s.hasPusher then
      { s with hasPusher := false, handlersBound := false,
               disconnects := s.disconnects + 1 }
    else s
  else s

/-- A mount or unmount event. -/
inductive SubEv where
  | acq
  | rel
deriving DecidableEq, Repr

def subStep (s : SubState) : SubEv → SubState
  | .acq => acquire s
  | .rel => release s

def runSub (s : SubState) (es : List SubEv) : SubState :=
  es.foldl subStep s

/-- Elapse of the grace period: every scheduled timer fires. -/
def fireAllTimers (s : SubState) : SubState :=
  fireTimer^[s.pending] s

def countAcq : List SubEv → ℕ
  | [] => 0
  | SubEv.acq :: r => countAcq r + 1
  | SubEv.rel :: r => countAcq r

def countRel : List SubEv → ℕ
  | [] => 0
  | SubEv.acq :: r => countRel r
  | SubEv.rel :: r => countRel r + 1

/-- A mount/unmount interleaving is well formed when every unmount is the
cleanup of an earlier mount: with `c` hooks currently mounted, a release
requires `0 < c`. -/
def balancedFrom : ℕ → List SubEv → Bool
  | _, [] => true
  | c, SubEv.acq :: r => balancedFrom (c + 1) r
  | c, SubEv.rel :: r => decide (0 < c) && balancedFrom (c - 1) r

/-- Number of webhook-originated publishes. -/
def webhookPublishedCount (s : PipelineState) : ℕ :=
  s.published.countP (fun r => r.fst = Origin.webhook)

def isWebhookInput : PipelineInput → Bool
  | .poll _ => false
  | .webhook _ _ _ => true

/-- Invariant holding after any nonempty well-formed mount/unmount prefix:
the singleton connection and channel exist, handlers are bound, exactly one
construction and one handler-binding have happened, no disconnect yet, and
whenever the refcount is zero a grace timer is pending. -/
def subInv (s : SubState) : Prop :=
  s.hasPusher = true ∧ s.handlersBound = true ∧ s.hasChannel = true ∧
  s.connects = 1 ∧ s.stateBinds = 1 ∧ s.disconnects = 0 ∧
  (s.count = 0 → 1 ≤ s.pending)

/-! ## Buffer lemmas (claim C4) -/

lemma appendDataPoint_full {α : Type} (cap : ℕ) (l : List α) (p : α)
    (h : cap < l.length + 1) : appendDataPoint cap l p = (l ++ [p]).tail := by
  simp only [appendDataPoint, List.length_append, List.length_cons, List.length_nil]
  rw [if_pos (by omega)]

lemma appendDataPoint_slack {α : Type} (cap : ℕ) (l : List α) (p : α)
    (h : l.length + 1 ≤ cap) : appendDataPoint cap l p = l ++ [p] := by
  simp only [appendDataPoint, List.length_append, List.length_cons, List.length_nil]
  rw [if_neg (by omega)]

/-- Closed form for a run of appends: the buffer is the suffix of the whole
stream that fits in the capacity. -/
lemma foldl_appendDataPoint_eq_drop {α : Type} (cap : ℕ) :
    ∀ (ps s : List α), s.length ≤ cap →
      ps.foldl (appendDataPoint cap) s = (s ++ ps).drop (s.length + ps.length - cap) := by
  intro ps
  induction ps with
  | nil =>
    intro s hs
    simp [Nat.sub_eq_zero_of_le hs]
  | cons p rest ih =>
    intro s hs
    rw [List.foldl_cons]
    by_cases hlt : s.length + 1 ≤ cap
    · rw [appendDataPoint_slack cap s p hlt,
        ih (s ++ [p]) (by simpa using hlt)]
      simp only [List.append_assoc, List.singleton_append, List.length_append,
        List.length_cons, List.length_nil]
      congr 1
      omega
    · have hcap : s.length = cap := by omega
      rw [appendDataPoint_full cap s p (by omega)]
      have htl : ((s ++ [p]).tail).length = cap := by
        simp [List.length_tail]
        omega
      rw [ih _ (le_of_eq htl), htl]
      have hne : s ++ p :: rest = (s ++ [p]) ++ rest := by
        simp
      rw [hne]
      have h2 : (s ++ [p]).tail ++ rest = ((s ++ [p]) ++ rest).tail := by
        cases s with
        | nil => simp
        | cons a t => simp
      rw [h2, ← List.drop_one, List.drop_drop]
      congr 1
      simp only [List.length_append, List.length_cons, List.length_nil]
      omega

/-- C4: for every append sequence on a buffer of capacity `maxDataPoints`
that starts within capacity, the length never exceeds the capacity and the
oldest points are evicted first (the result is the capacity-sized suffix of
the full stream); in particular 101 appends on an empty capacity-100 buffer
leave exactly 100 points with the earliest append evicted. -/
theorem claim4_buffer_bounded_fifo :
    (∀ (cap : ℕ) (start ps : List (ChartDataPoint ℚ)), start.length ≤ cap →
      (ps.foldl (appendDataPoint cap) start).length ≤ cap ∧
      ps.foldl (appendDataPoint cap) start =
        (start ++ ps).drop (start.length + ps.length - cap)) ∧
    (∀ ps : List (ChartDataPoint ℚ), ps.length = 101 →
      (ps.foldl (appendDataPoint 100) []).length = 100 ∧
      ps.foldl (appendDataPoint 100) [] = ps.drop 1) := by
  constructor
  · intro cap start ps hs
    have hdrop := foldl_appendDataPoint_eq_drop cap ps start hs
    refine ⟨?_, hdrop⟩
    rw [hdrop]
    simp only [List.length_drop, List.length_append]
    omega
  · intro ps hlen
    have h := foldl_appendDataPoint_eq_drop 100 ps [] (by simp)
    simp only [List.nil_append, List.length_nil, Nat.zero_add, hlen] at h
    have h1 : (101 : ℕ) - 100 = 1 := by norm_num
    rw [h1] at h
    exact ⟨by rw [h, List.length_drop, hlen], h⟩

/-- Witness for C4 at a concrete input: three concrete appends on an empty
capacity-2 buffer, exercising the bounded-length and FIFO-suffix statement. -/
theorem claim4_witness :
    ([] : List (ChartDataPoint ℚ)).length ≤ 2 ∧
    (([ChartDataPoint.mk 0 0, ChartDataPoint.mk 1 1, ChartDataPoint.mk 2 2] : List (ChartDataPoint ℚ)).foldl
        (appendDataPoint 2) []).length ≤ 2 ∧
    ([ChartDataPoint.mk 0 0, ChartDataPoint.mk 1 1, ChartDataPoint.mk 2 2] : List (ChartDataPoint ℚ)).foldl (appendDataPoint 2) [] =
      (([] : List (ChartDataPoint ℚ)) ++ [ChartDataPoint.mk 0 0, ChartDataPoint.mk 1 1, ChartDataPoint.mk 2 2]).drop
        (([] : List (ChartDataPoint ℚ)).length +
          ([ChartDataPoint.mk 0 0, ChartDataPoint.mk 1 1, ChartDataPoint.mk 2 2] : List (ChartDataPoint ℚ)).length - 2) :=
  ⟨by decide,
    claim4_buffer_bounded_fifo.1 2 [] [ChartDataPoint.mk 0 0, ChartDataPoint.mk 1 1, ChartDataPoint.mk 2 2] (by decide)⟩

/-! ## Chart init-effect lemmas (claim C9) -/

lemma chartInitEffect_of_initialized {K : Type} [LinearOrderedField K]
    (sin : K → K) (pi : K) (now : ℤ) (n : ℕ) (s : LiveChartState K) (t : Token K)
    (h : s.initializedToken = t.id) : chartInitEffect sin pi now n s t = s := by
  simp [chartInitEffect, h]

lemma chartInitEffect_initializedToken {K : Type} [LinearOrderedField K]
    (sin : K → K) (pi : K) (now : ℤ) (n : ℕ) (s : LiveChartState K) (t : Token K) :
    (chartInitEffect sin pi now n s t).initializedToken = t.id := by
  by_cases h : s.initializedToken = t.id
  · simp [chartInitEffect, h]
  · simp [chartInitEffect, h]

lemma foldl_chartInitEffect_fixed {K : Type} [LinearOrderedField K]
    (sin : K → K) (pi : K) (n : ℕ) (x : String) :
    ∀ (renders : List (ℤ × Token K)) (s : LiveChartState K),
      s.initializedToken = x → (∀ r ∈ renders, (Prod.snd r).id = x) →
      renders.foldl (fun st r => chartInitEffect sin pi r.fst n st r.snd) s = s := by
  intro renders
  induction renders with
  | nil => intro s _ _; rfl
  | cons r rest ih =>
    intro s hs hall
    rw [List.foldl_cons,
      chartInitEffect_of_initialized sin pi r.fst n s r.snd
        (by rw [hs, hall r (List.mem_cons_self r rest)])]
    exact ih s hs (fun q hq => hall q (List.mem_cons_of_mem r hq))

/-- C9: once the chart buffer has been seeded for an identifier, re-seeding
never occurs — any further runs of the init effect with tokens carrying that
identifier (whatever their price, volume or change fields, and whatever the
clock reads) leave the hook state exactly as the first seeding left it. -/
theorem claim9_no_reseed {K : Type} [LinearOrderedField K] (sin : K → K) (pi : K)
    (n : ℕ) (s : LiveChartState K) (now0 : ℤ) (t : Token K)
    (renders : List (ℤ × Token K))
    (h : ∀ r ∈ renders, (Prod.snd r).id = t.id) :
    renders.foldl (fun st r => chartInitEffect sin pi r.fst n st r.snd)
        (chartInitEffect sin pi now0 n s t) =
      chartInitEffect sin pi now0 n s t :=
  foldl_chartInitEffect_fixed sin pi n t.id renders
    (chartInitEffect sin pi now0 n s t)
    (chartInitEffect_initializedToken sin pi now0 n s t) h

/-- Witness for C9 at a concrete input: a mount on token "a" followed by a
render of "a" at a different price and clock. -/
theorem claim9_witness :
    (∀ r ∈ [((5 : ℤ),
        ({ id := "a", symbol := "A", name := "a", price := 2, priceChange24h := 0,
           volume24h := 7, marketCap := 0, liquidity := 0, chain := "sol" } : Token ℚ))],
      (Prod.snd r).id =
        ({ id := "a", symbol := "A", name := "a", price := 1, priceChange24h := 25,
           volume24h := 0, marketCap := 0, liquidity := 0, chain := "sol" } : Token ℚ).id) ∧
    [((5 : ℤ),
        ({ id := "a", symbol := "A", name := "a", price := 2, priceChange24h := 0,
           volume24h := 7, marketCap := 0, liquidity := 0, chain := "sol" } : Token ℚ))].foldl
        (fun st r => chartInitEffect (fun _ => (0 : ℚ)) 0 r.fst 24 st r.snd)
        (chartInitEffect (fun _ => (0 : ℚ)) 0 3 24
          (liveChartInit
            ({ id := "a", symbol := "A", name := "a", price := 1, priceChange24h := 25,
               volume24h := 0, marketCap := 0, liquidity := 0, chain := "sol" } : Token ℚ))
          ({ id := "a", symbol := "A", name := "a", price := 1, priceChange24h := 25,
             volume24h := 0, marketCap := 0, liquidity := 0, chain := "sol" } : Token ℚ)) =
      chartInitEffect (fun _ => (0 : ℚ)) 0 3 24
        (liveChartInit
          ({ id := "a", symbol := "A", name := "a", price := 1, priceChange24h := 25,
             volume24h := 0, marketCap := 0, liquidity := 0, chain := "sol" } : Token ℚ))
        ({ id := "a", symbol := "A", name := "a", price := 1, priceChange24h := 25,
           volume24h := 0, marketCap := 0, liquidity := 0, chain := "sol" } : Token ℚ) := by
  refine ⟨by decide, ?_⟩
  exact claim9_no_reseed (fun _ => (0 : ℚ)) 0 24 (liveChartInit _) 3 _ _ (by decide)

/-! ## Source-adapter fetch lemmas (claim C8) -/

lemma fetchFromCoinGecko_ok (rand : ℕ → ℚ) (nowIso : String)
    (cg : ProviderResult (List CGCoin)) :
    ∃ l, fetchFromCoinGecko rand nowIso cg = Except.ok l := by
  cases cg with
  | fail m => exact ⟨[], rfl⟩
  | resp ok payload =>
    by_cases h : ok = true
    · subst h
      exact ⟨_, rfl⟩
    · have hf : ok = false := by simpa using h
      subst hf
      exact ⟨[], rfl⟩

/-- C8: the source adapter's fetch never raises — for every outcome of the
primary DEXScreener call and every outcome of the CoinGecko call it returns
a candidate list (never an exception), and whenever the primary call failed
(threw, non-OK status, or empty pair list) the result is exactly the
fallback provider's result, which itself is always a list (possibly empty). -/
theorem claim8_fetch_never_raises (dex : ProviderResult (Option (List DexPair)))
    (rand : ℕ → ℚ) (nowIso : String) (cg : ProviderResult (List CGCoin)) :
    (∃ l, fetchNewlyCreatedTokens dex rand nowIso cg = Except.ok l) ∧
    (∃ l, fetchFromCoinGecko rand nowIso cg = Except.ok l) ∧
    (dexFailed dex = true →
      fetchNewlyCreatedTokens dex rand nowIso cg = fetchFromCoinGecko rand nowIso cg) := by
  refine ⟨?_, fetchFromCoinGecko_ok rand nowIso cg, ?_⟩
  · cases dex with
    | fail m => exact fetchFromCoinGecko_ok rand nowIso cg
    | resp ok payload =>
      by_cases hok : ok = true
      · subst hok
        by_cases hp : 0 < (payload.getD []).length
        · refine ⟨((payload.getD []).take 20).map dexToMobula, ?_⟩
          simp [fetchNewlyCreatedTokens, hp]
        · have h0 := fetchFromCoinGecko_ok rand nowIso cg
          simpa [fetchNewlyCreatedTokens, hp] using h0
      · have hf : ok = false := by simpa using hok
        subst hf
        exact fetchFromCoinGecko_ok rand nowIso cg
  · cases dex with
    | fail m => intro _; rfl
    | resp ok payload =>
      by_cases hok : ok = true
      · subst hok
        by_cases hp : 0 < (payload.getD []).length
        · intro hfail
          exfalso
          have : (payload.getD []).isEmpty = true := by
            simpa [dexFailed] using hfail
          rw [List.isEmpty_iff_length_eq_zero] at this
          omega
        · simp [fetchNewlyCreatedTokens, hp]
      · have hf : ok = false := by simpa using hok
        subst hf
        intro _; rfl

/-- Witness for C8 at a concrete input: the primary throws and the fallback
responds OK with one coin. -/
theorem claim8_witness :
    (∃ l, fetchNewlyCreatedTokens (ProviderResult.fail ("boom")) (fun _ => 3) ("iso")
        (ProviderResult.resp true [{ id := some ("btc") }]) = Except.ok l) ∧
    dexFailed (ProviderResult.fail ("boom")) = true ∧
    fetchNewlyCreatedTokens (ProviderResult.fail ("boom")) (fun _ => 3) ("iso")
        (ProviderResult.resp true [{ id := some ("btc") }]) =
      fetchFromCoinGecko (fun _ => 3) ("iso")
        (ProviderResult.resp true [{ id := some ("btc") }]) := by
  refine ⟨?_, by decide, ?_⟩
  · exact (claim8_fetch_never_raises (ProviderResult.fail ("boom")) (fun _ => 3) ("iso")
      (ProviderResult.resp true [{ id := some ("btc") }])).1
  · exact (claim8_fetch_never_raises (ProviderResult.fail ("boom")) (fun _ => 3) ("iso")
      (ProviderResult.resp true [{ id := some ("btc") }])).2.2 (by decide)

/-! ## Pipeline lemmas (claims C1, C2) -/

lemma initSeenStep_published (s : PipelineState) (t : MobulaToken) :
    (initSeenStep s t).published = s.published := by
  unfold initSeenStep
  cases dedupId t with
  | none => rfl
  | some tid =>
    by_cases h : tid ∈ s.seen
    · simp [h]
    · simp [h]

lemma initializeSeenTokens_published :
    ∀ (ts : List MobulaToken) (s : PipelineState),
      (initializeSeenTokens s ts).published = s.published := by
  intro ts
  induction ts with
  | nil => intro s; rfl
  | cons t r ih =>
    intro s
    show (initializeSeenTokens (initSeenStep s t) r).published = s.published
    rw [ih, initSeenStep_published]

lemma initSeenStep_seen_mono (s : PipelineState) (t : MobulaToken) (x : String)
    (h : x ∈ s.seen) : x ∈ (initSeenStep s t).seen := by
  unfold initSeenStep
  cases dedupId t with
  | none => exact h
  | some tid =>
    by_cases hm : tid ∈ s.seen
    · simpa [hm] using h
    · simp only [hm, if_false]
      exact List.mem_cons_of_mem tid h

lemma initializeSeenTokens_seen_mono :
    ∀ (ts : List MobulaToken) (s : PipelineState) (x : String),
      x ∈ s.seen → x ∈ (initializeSeenTokens s ts).seen := by
  intro ts
  induction ts with
  | nil => intro s x h; exact h
  | cons t r ih =>
    intro s x h
    exact ih (initSeenStep s t) x (initSeenStep_seen_mono s t x h)

lemma startupIds_mem_seen :
    ∀ (ts : List MobulaToken) (s : PipelineState) (x : String),
      x ∈ startupIds ts → x ∈ (initializeSeenTokens s ts).seen := by
  intro ts
  induction ts with
  | nil => intro s x h; cases h
  | cons t r ih =>
    intro s x h
    rw [startupIds, List.filterMap_cons] at h
    show x ∈ (initializeSeenTokens (initSeenStep s t) r).seen
    cases hd : dedupId t with
    | none =>
      rw [hd] at h
      exact ih (initSeenStep s t) x h
    | some tid =>
      rw [hd] at h
      rcases List.mem_cons.mp h with h1 | h2
      · subst h1
        refine initializeSeenTokens_seen_mono r (initSeenStep s t) x ?_
        unfold initSeenStep
        rw [hd]
        by_cases hm : x ∈ s.seen
        · simp [hm]
        · simp [hm]
      · exact ih (initSeenStep s t) x h2

lemma pollToken_keep (idp : String) (s : PipelineState) (t : MobulaToken)
    (hseen : idp ∈ s.seen) (hpub : idp ∉ publishedIds s) :
    idp ∈ (pollToken s t).seen ∧ idp ∉ publishedIds (pollToken s t) := by
  unfold pollToken
  cases hd : dedupId t with
  | none => exact ⟨hseen, hpub⟩
  | some tid =>
    by_cases hm : tid ∈ s.seen
    · simpa [hm] using ⟨hseen, hpub⟩
    · simp only [hm, if_false]
      constructor
      · exact List.mem_cons_of_mem tid hseen
      · intro hmem
        rw [publishedIds] at hmem
        simp only [List.map_append, List.mem_append] at hmem
        rcases hmem with h1 | h2
        · exact hpub h1
        · simp only [List.map_cons, List.map_nil, List.mem_singleton] at h2
          subst h2
          exact hm hseen

lemma pollAndBroadcast_keep (idp : String) :
    ∀ (tokens : List MobulaToken) (s : PipelineState),
      idp ∈ s.seen → idp ∉ publishedIds s →
      idp ∈ (pollAndBroadcast s tokens).seen ∧
        idp ∉ publishedIds (pollAndBroadcast s tokens) := by
  intro tokens
  induction tokens with
  | nil => intro s h1 h2; exact ⟨h1, h2⟩
  | cons t r ih =>
    intro s h1 h2
    have hstep := pollToken_keep idp s t h1 h2
    exact ih (pollToken s t) hstep.1 hstep.2

lemma runPolls_keep (idp : String) :
    ∀ (cycles : List (List MobulaToken)) (s : PipelineState),
      idp ∈ s.seen → idp ∉ publishedIds s →
      idp ∉ publishedIds (runPolls s cycles) := by
  intro cycles
  induction cycles with
  | nil => intro s _ h2; exact h2
  | cons c r ih =>
    intro s h1 h2
    have hstep := pollAndBroadcast_keep idp c s h1 h2
    exact ih (pollAndBroadcast s c) hstep.1 hstep.2

/-- C2: cold-start suppression — no identifier returned by the startup fetch
is ever broadcast by any later poll cycle, and in the concrete scenario a
startup poll returning x1 broadcasts nothing while the next cycle returning
x1 and the new x2 broadcasts exactly once, for x2. -/
theorem claim2_cold_start_suppression :
    (∀ (startup : List MobulaToken) (cycles : List (List MobulaToken)) (idp : String),
      idp ∈ startupIds startup →
      idp ∉ publishedIds (runPolls (initializeSeenTokens pipelineInit startup) cycles)) ∧
    (initializeSeenTokens pipelineInit
        [{ id := some ("x1"), price := some 1 }]).published = [] ∧
    (runPolls
        (initializeSeenTokens pipelineInit [{ id := some ("x1"), price := some 1 }])
        [[{ id := some ("x1"), price := some 1 },
          { id := some ("x2"), price := some 2 }]]).published =
      [(Origin.poller, ("x2"))] := by
  refine ⟨?_, by decide, by decide⟩
  intro startup cycles idp hid
  have hseen := startupIds_mem_seen startup pipelineInit idp hid
  have hpub : idp ∉ publishedIds (initializeSeenTokens pipelineInit startup) := by
    rw [publishedIds, initializeSeenTokens_published]
    simp [pipelineInit]
  exact runPolls_keep idp cycles (initializeSeenTokens pipelineInit startup) hseen hpub

/-- Witness for C2 at a concrete input: x1 comes from the startup fetch and
is not among the identifiers published by the next cycle. -/
theorem claim2_witness :
    ("x1") ∈ startupIds [{ id := some ("x1"), price := some 1 }] ∧
    ("x1") ∉ publishedIds (runPolls
      (initializeSeenTokens pipelineInit [{ id := some ("x1"), price := some 1 }])
      [[{ id := some ("x1"), price := some 1 },
        { id := some ("x2"), price := some 2 }]]) :=
  ⟨by decide,
    claim2_cold_start_suppression.1 [{ id := some ("x1"), price := some 1 }]
      [[{ id := some ("x1"), price := some 1 },
        { id := some ("x2"), price := some 2 }]] ("x1") (by decide)⟩

lemma pollToken_dedup_inv (s : PipelineState) (t : MobulaToken)
    (h1 : (pollerPublishedIds s).Nodup)
    (h2 : ∀ x ∈ pollerPublishedIds s, x ∈ s.seen) :
    (pollerPublishedIds (pollToken s t)).Nodup ∧
      (∀ x ∈ pollerPublishedIds (pollToken s t), x ∈ (pollToken s t).seen) := by
  unfold pollToken
  cases hd : dedupId t with
  | none => exact ⟨h1, h2⟩
  | some tid =>
    by_cases hm : tid ∈ s.seen
    · simpa [hm] using ⟨h1, h2⟩
    · simp only [hm, if_false]
      have hfilter :
          pollerPublishedIds
              { seen := tid :: s.seen,
                published := s.published ++ [(Origin.poller, tid)] } =
            pollerPublishedIds s ++ [tid] := by
        simp [pollerPublishedIds, List.filter_append]
      constructor
      · rw [hfilter, List.nodup_append]
        refine ⟨h1, List.nodup_singleton tid, ?_⟩
        intro x hx hxs
        simp only [List.mem_singleton] at hxs
        subst hxs
        exact hm (h2 x hx)
      · intro x hx
        rw [hfilter, List.mem_append] at hx
        rcases hx with hx | hx
        · exact List.mem_cons_of_mem tid (h2 x hx)
        · simp only [List.mem_singleton] at hx
          subst hx
          exact List.mem_cons_self _ _

lemma pollAndBroadcast_dedup_inv :
    ∀ (tokens : List MobulaToken) (s : PipelineState),
      (pollerPublishedIds s).Nodup →
      (∀ x ∈ pollerPublishedIds s, x ∈ s.seen) →
      (pollerPublishedIds (pollAndBroadcast s tokens)).Nodup ∧
        (∀ x ∈ pollerPublishedIds (pollAndBroadcast s tokens),
          x ∈ (pollAndBroadcast s tokens).seen) := by
  intro tokens
  induction tokens with
  | nil => intro s h1 h2; exact ⟨h1, h2⟩
  | cons t r ih =>
    intro s h1 h2
    have hstep := pollToken_dedup_inv s t h1 h2
    exact ih (pollToken s t) hstep.1 hstep.2

lemma pollToken_webhookCount (s : PipelineState) (t : MobulaToken) :
    webhookPublishedCount (pollToken s t) = webhookPublishedCount s := by
  unfold pollToken
  cases dedupId t with
  | none => rfl
  | some tid =>
    by_cases hm : tid ∈ s.seen
    · simp [hm]
    · simp [hm, webhookPublishedCount, List.countP_append]

lemma pollToken_pollerIds_sub (s : PipelineState) (t : MobulaToken) :
    ∀ x ∈ pollerPublishedIds s, x ∈ pollerPublishedIds (pollToken s t) := by
  unfold pollToken
  cases dedupId t with
  | none => intro x hx; exact hx
  | some tid =>
    by_cases hm : tid ∈ s.seen
    · simp only [hm, if_true]
      intro x hx
      exact hx
    · simp only [hm, if_false]
      intro x hx
      simp only [pollerPublishedIds, List.filter_append, List.map_append, List.mem_append]
      exact Or.inl hx

lemma pollAndBroadcast_webhookCount :
    ∀ (tokens : List MobulaToken) (s : PipelineState),
      webhookPublishedCount (pollAndBroadcast s tokens) = webhookPublishedCount s := by
  intro tokens
  induction tokens with
  | nil => intro s; rfl
  | cons t r ih =>
    intro s
    show webhookPublishedCount (pollAndBroadcast (pollToken s t) r) = _
    rw [ih (pollToken s t), pollToken_webhookCount]

lemma pipelineStep_dedup_inv (s : PipelineState) (inp : PipelineInput)
    (h1 : (pollerPublishedIds s).Nodup)
    (h2 : ∀ x ∈ pollerPublishedIds s, x ∈ s.seen) :
    ((pollerPublishedIds (pipelineStep s inp)).Nodup ∧
      (∀ x ∈ pollerPublishedIds (pipelineStep s inp), x ∈ (pipelineStep s inp).seen)) ∧
    webhookPublishedCount (pipelineStep s inp) =
      webhookPublishedCount s + (if isWebhookInput inp then 1 else 0) := by
  cases inp with
  | poll tokens =>
    refine ⟨pollAndBroadcast_dedup_inv tokens s h1 h2, ?_⟩
    simp [pipelineStep, pollAndBroadcast_webhookCount, isWebhookInput]
  | webhook now rand body =>
    constructor
    · constructor
      · simpa [pipelineStep, pollerPublishedIds, List.filter_append] using h1
      · intro x hx
        simp only [pipelineStep] at hx ⊢
        have : pollerPublishedIds
            { s with published :=
                s.published ++ [(Origin.webhook, (webhookEvent now rand body).id)] } =
            pollerPublishedIds s := by
          simp [pollerPublishedIds, List.filter_append]
        rw [this] at hx
        exact h2 x hx
    · simp [pipelineStep, webhookPublishedCount, List.countP_append, isWebhookInput]

lemma runPipeline_dedup_inv :
    ∀ (inputs : List PipelineInput) (s : PipelineState),
      (pollerPublishedIds s).Nodup →
      (∀ x ∈ pollerPublishedIds s, x ∈ s.seen) →
      (pollerPublishedIds (runPipeline s inputs)).Nodup ∧
        webhookPublishedCount (runPipeline s inputs) =
          webhookPublishedCount s + inputs.countP isWebhookInput := by
  intro inputs
  induction inputs with
  | nil =>
    intro s h1 _
    exact ⟨h1, by simp [runPipeline]⟩
  | cons inp rest ih =>
    intro s h1 h2
    have hstep := pipelineStep_dedup_inv s inp h1 h2
    have hrec := ih (pipelineStep s inp) hstep.1.1 hstep.1.2
    refine ⟨hrec.1, ?_⟩
    show webhookPublishedCount (runPipeline (pipelineStep s inp) rest) = _
    rw [hrec.2, hstep.2, List.countP_cons]
    by_cases hw : isWebhookInput inp = true
    · simp [hw]
      omega
    · simp only [hw, if_false]
      simp at hw
      simp [hw]

/-- C1 (amended): at-most-once delivery holds for the poller path — across
any mix of poll cycles and webhook requests, the poller publishes each
distinct identifier at most once during the process lifetime, because that
path passes through the dedup filter; the webhook path performs no
deduplication and publishes exactly one event per request. -/
theorem claim1_amended_dedup (startup : List MobulaToken)
    (inputs : List PipelineInput) (idp : String) :
    (pollerPublishedIds
        (runPipeline (initializeSeenTokens pipelineInit startup) inputs)).count idp ≤ 1 ∧
    webhookPublishedCount
        (runPipeline (initializeSeenTokens pipelineInit startup) inputs) =
      inputs.countP isWebhookInput := by
  have h0 : pollerPublishedIds (initializeSeenTokens pipelineInit startup) = [] := by
    rw [pollerPublishedIds, initializeSeenTokens_published]
    rfl
  have hinv := runPipeline_dedup_inv inputs (initializeSeenTokens pipelineInit startup)
    (by rw [h0]; exact List.nodup_nil)
    (by rw [h0]; intro x hx; cases hx)
  refine ⟨List.nodup_iff_count_le_one.mp hinv.1 idp, ?_⟩
  rw [hinv.2, webhookPublishedCount, initializeSeenTokens_published]
  simp [pipelineInit]

/-- Counterexample to C1 as stated: the webhook path does not pass through
the dedup filter, so the same identifier submitted twice through
`POST /api/broadcast` is published twice. -/
theorem claim1_counterexample :
    (publishedIds (runPipeline pipelineInit
        [PipelineInput.webhook 0 0 ⟨some ⟨{ id := some ("dup"), symbol := some ("TEST"), price := some 1 }, none⟩, {}⟩,
         PipelineInput.webhook 0 0 ⟨some ⟨{ id := some ("dup"), symbol := some ("TEST"), price := some 1 }, none⟩, {}⟩])).count ("dup") = 2 := by
  decide

/-- C7 (amended): for every webhook POST body, the route does not fail but
substitutes defaults — it always publishes exactly one event with a 200
reply and category "new"; a missing (or empty) symbol falls back to the
sentinel UNKNOWN and a present one is upper-cased; the numeric market
fields price, priceChange24h, volume24h, marketCap and liquidity default
to 0 when their sources are absent (liquidity first estimated as 30
percent of volume24h); name falls back to "New Token", the identifier
falls back to the clock string, and holders falls back to the random draw
rather than to 0; the scenario-B body with only symbol TEST and price
1.23 therefore yields one event with volume24h = 0, liquidity = 0 and
category "new". -/
theorem claim7_amended_webhook_defaults (now : ℤ) (rand : ℚ) (body : WebhookBody) :
    (postBroadcast true now rand body).1 = [webhookEvent now rand body] ∧
    (postBroadcast true now rand body).2 = ⟨200, true⟩ ∧
    (webhookEvent now rand body).category = ("new") ∧
    ((webhookTokenFields body).symbol = none →
      (webhookEvent now rand body).symbol = ("UNKNOWN")) ∧
    (∀ s, (webhookTokenFields body).symbol = some s →
      (jsToUpperCase s).isEmpty = false →
      (webhookEvent now rand body).symbol = jsToUpperCase s) ∧
    ((webhookTokenFields body).price = none → (webhookEvent now rand body).price = 0) ∧
    (∀ q, (webhookTokenFields body).price = some q →
      (webhookEvent now rand body).price = q) ∧
    ((webhookTokenFields body).priceChange24h = none →
      (webhookEvent now rand body).priceChange24h = 0) ∧
    ((webhookTokenFields body).volume24h = none →
      (webhookTokenFields body).volume = none →
      (webhookEvent now rand body).volume24h = 0) ∧
    ((webhookTokenFields body).marketCap = none →
      (webhookTokenFields body).market_cap = none →
      (webhookEvent now rand body).marketCap = 0) ∧
    ((webhookTokenFields body).liquidity = none →
      (webhookEvent now rand body).liquidity =
        (jsNumDefault (webhookTokenFields body).volume24h 0) * (3/10)) ∧
    ((webhookTokenFields body).liquidity = none →
      (webhookTokenFields body).volume24h = none →
      (webhookEvent now rand body).liquidity = 0) ∧
    ((webhookTokenFields body).holders = none →
      (webhookEvent now rand body).holders = rand) ∧
    ((webhookTokenFields body).name = none →
      (webhookEvent now rand body).name = ("New Token")) ∧
    ((webhookTokenFields body).id = none →
      (webhookTokenFields body).address = none →
      (webhookEvent now rand body).id = toString now) ∧
    (webhookEvent now rand
        ⟨some ⟨{ symbol := some ("TEST"), price := some (123/100) }, none⟩, {}⟩) =
      { id := toString now, symbol := ("TEST"), name := ("New Token"),
        price := 123/100, priceChange24h := 0, volume24h := 0, marketCap := 0,
        liquidity := 0, holders := rand, chain := ("solana"), logo := (""),
        category := ("new") } := by
  refine ⟨rfl, rfl, rfl, ?_, ?_, ?_, ?_, ?_, ?_, ?_, ?_, ?_, ?_, ?_, ?_, ?_⟩
  · intro h
    simp only [webhookTokenFields] at h
    simp [webhookEvent, h, jsStrDefault, jsOrStr, jsStrFalsy]
  · intro sym h hne
    simp only [webhookEvent, webhookTokenFields] at h ⊢
    rw [h]
    simp [jsStrDefault, jsOrStr, jsStrFalsy, hne]
  · intro h
    simp only [webhookEvent, webhookTokenFields] at h ⊢
    rw [h]
    rfl
  · intro q h
    simp only [webhookEvent, webhookTokenFields] at h ⊢
    rw [h]
    rcases eq_or_ne q 0 with hq | hq
    · simp [jsNumDefault, jsOrNum, jsNumFalsy, hq]
    · simp [jsNumDefault, jsOrNum, jsNumFalsy, hq]
  · intro h
    simp only [webhookEvent, webhookTokenFields] at h ⊢
    rw [h]
    rfl
  · intro h hv
    simp only [webhookEvent, webhookTokenFields] at h hv ⊢
    rw [h, hv]
    rfl
  · intro h hm
    simp only [webhookEvent, webhookTokenFields] at h hm ⊢
    rw [h, hm]
    rfl
  · intro h
    simp only [webhookEvent, webhookTokenFields] at h ⊢
    rw [h]
    rfl
  · intro h hv
    simp only [webhookEvent, webhookTokenFields] at h hv ⊢
    rw [h, hv]
    simp [jsNumDefault, jsOrNum, jsNumFalsy]
  · intro h
    simp only [webhookEvent, webhookTokenFields] at h ⊢
    rw [h]
    rfl
  · intro h
    simp only [webhookEvent, webhookTokenFields] at h ⊢
    rw [h]
    rfl
  · intro h ha
    simp only [webhookEvent, webhookTokenFields] at h ha ⊢
    rw [h, ha]
    rfl
  · show webhookEvent now rand _ = _
    rw [webhookEvent]
    norm_num [jsNumDefault, jsOrNum, jsNumFalsy, jsStrDefault, jsOrStr, jsStrFalsy,
      jsToUpperCase]
    decide

/-- Witness for C7 at a concrete input: the empty webhook body, whose every
field is missing, yields the UNKNOWN symbol sentinel and a zero price. -/
theorem claim7_witness :
    ((webhookTokenFields {}).symbol = none ∧ (webhookTokenFields {}).price = none) ∧
    (webhookEvent 5 7 {}).symbol = ("UNKNOWN") ∧
    (webhookEvent 5 7 {}).price = 0 := by
  obtain ⟨-, -, -, hsymNone, -, hpriceNone, -⟩ :=
    claim7_amended_webhook_defaults 5 7 {}
  exact ⟨⟨rfl, rfl⟩, hsymNone rfl, hpriceNone rfl⟩

/-- Counterexample to C7 as stated: `holders` is a numeric field, it is
missing from the example body, and yet it does not default to 0 — the route
substitutes the random draw (here 7). -/
theorem claim7_counterexample :
    (webhookEvent 0 7
        ⟨some ⟨{ symbol := some ("TEST"), price := some (123/100) }, none⟩, {}⟩).holders ≠ 0 := by
  decide

/-! ## Subscription-manager lemmas (claim C3) -/

lemma acquire_of_inv (s : SubState) (h : subInv s) :
    acquire s = { s with count := s.count + 1 } := by
  obtain ⟨hp, _, hc, _⟩ := h
  simp [acquire, hp, hc]

lemma release_eq (s : SubState) :
    release s =
      if s.count - 1 = 0 then { s with count := s.count - 1, pending := s.pending + 1 }
      else { s with count := s.count - 1 } := by
  unfold release
  by_cases hz : s.count - 1 = 0
  · simp [hz]
  · simp [hz]

lemma runSub_inv :
    ∀ (es : List SubEv) (s : SubState),
      balancedFrom s.count es = true → subInv s →
      subInv (runSub s es) ∧
        (runSub s es).count + countRel es = s.count + countAcq es := by
  intro es
  induction es with
  | nil =>
    intro s _ h
    refine ⟨h, ?_⟩
    show s.count + 0 = s.count + 0
    rfl
  | cons e r ih =>
    intro s hbal h
    cases e with
    | acq =>
      have hstep : runSub s (SubEv.acq :: r) = runSub (acquire s) r := rfl
      rw [hstep, acquire_of_inv s h]
      have hbal2 : balancedFrom ({ s with count := s.count + 1 } : SubState).count r = true :=
        hbal
      have hinv2 : subInv { s with count := s.count + 1 } := by
        obtain ⟨h1, h2, h3, h4, h5, h6, _⟩ := h
        exact ⟨h1, h2, h3, h4, h5, h6,
          fun hc => absurd hc (Nat.succ_ne_zero s.count)⟩
      have hrec := ih { s with count := s.count + 1 } hbal2 hinv2
      refine ⟨hrec.1, ?_⟩
      have h2 : (runSub { s with count := s.count + 1 } r).count + countRel r =
          s.count + 1 + countAcq r := hrec.2
      show (runSub { s with count := s.count + 1 } r).count + countRel r =
        s.count + (countAcq r + 1)
      omega
    | rel =>
      have hbal0 : (decide (0 < s.count) && balancedFrom (s.count - 1) r) = true := hbal
      rw [Bool.and_eq_true] at hbal0
      have hpos : 0 < s.count := by
        have := hbal0.1
        simpa using this
      have hstep : runSub s (SubEv.rel :: r) = runSub (release s) r := rfl
      rw [hstep]
      obtain ⟨h1, h2, h3, h4, h5, h6, _⟩ := h
      have hcount : (release s).count = s.count - 1 := by
        rw [release_eq]
        by_cases hz : s.count - 1 = 0
        · rw [if_pos hz]
        · rw [if_neg hz]
      have hinv2 : subInv (release s) := by
        rw [release_eq]
        by_cases hz : s.count - 1 = 0
        · rw [if_pos hz]
          refine ⟨h1, h2, h3, h4, h5, h6, fun _ => ?_⟩
          show 1 ≤ s.pending + 1
          omega
        · rw [if_neg hz]
          exact ⟨h1, h2, h3, h4, h5, h6, fun hc => absurd hc hz⟩
      have hbal2 : balancedFrom (release s).count r = true := by
        rw [hcount]
        exact hbal0.2
      have hrec := ih (release s) hbal2 hinv2
      refine ⟨hrec.1, ?_⟩
      have heq := hrec.2
      rw [hcount] at heq
      show (runSub (release s) r).count + (countRel r + 1) = s.count + countAcq r
      omega

lemma fireTimer_dead (s : SubState) (h1 : s.hasPusher = false)
    (h2 : s.hasChannel = false) :
    fireTimer s = { s with pending := s.pending - 1 } := by
  by_cases hc : s.count = 0
  · simp [fireTimer, hc, h1, h2]
  · simp [fireTimer, hc]

lemma fireTimer_iter_dead :
    ∀ (n : ℕ) (s : SubState), s.hasPusher = false → s.hasChannel = false →
      (fireTimer^[n] s).connects = s.connects ∧
      (fireTimer^[n] s).disconnects = s.disconnects ∧
      (fireTimer^[n] s).stateBinds = s.stateBinds := by
  intro n
  induction n with
  | zero => intro s _ _; exact ⟨rfl, rfl, rfl⟩
  | succ k ih =>
    intro s h1 h2
    rw [Function.iterate_succ_apply, fireTimer_dead s h1 h2]
    exact ih { s with pending := s.pending - 1 } h1 h2

lemma fireTimer_teardown (s : SubState) (h : subInv s) (hc : s.count = 0) :
    fireTimer s =
      { hasPusher := false, handlersBound := false, hasChannel := false,
        count := 0, pending := s.pending - 1, connects := s.connects,
        disconnects := s.disconnects + 1, stateBinds := s.stateBinds } := by
  obtain ⟨h1, _, h3, _⟩ := h
  simp [fireTimer, hc, h1, h3]

lemma fireAllTimers_teardown (s : SubState) (h : subInv s) (hc : s.count = 0) :
    (fireAllTimers s).connects = s.connects ∧
    (fireAllTimers s).disconnects = s.disconnects + 1 ∧
    (fireAllTimers s).stateBinds = s.stateBinds := by
  have hpend : 1 ≤ s.pending := h.2.2.2.2.2.2 hc
  obtain ⟨k, hk⟩ : ∃ k, s.pending = k + 1 := ⟨s.pending - 1, by omega⟩
  rw [fireAllTimers, hk, Function.iterate_succ_apply, fireTimer_teardown s h hc]
  have hrest := fireTimer_iter_dead k
    { hasPusher := false, handlersBound := false, hasChannel := false,
      count := 0, pending := s.pending - 1, connects := s.connects,
      disconnects := s.disconnects + 1, stateBinds := s.stateBinds } rfl rfl
  exact hrest

/-- C3 (amended, requiring at least one mount): for every N ≥ 1 and every
well-formed interleaving of N acquires and N releases, followed by elapse
of the 100 ms grace period, exactly one broker connection is constructed,
exactly one disconnect occurs, and the connection-state handlers are bound
exactly once, regardless of the number of acquires. -/
theorem claim3_amended_refcount (es : List SubEv) (N : ℕ)
    (hbal : balancedFrom 0 es = true) (hacq : countAcq es = N)
    (hrel : countRel es = N) (hpos : 0 < N) :
    (fireAllTimers (runSub subInit es)).connects = 1 ∧
    (fireAllTimers (runSub subInit es)).disconnects = 1 ∧
    (fireAllTimers (runSub subInit es)).stateBinds = 1 := by
  cases es with
  | nil =>
    exfalso
    rw [show countAcq [] = 0 from rfl] at hacq
    omega
  | cons e rest =>
    cases e with
    | rel =>
      exfalso
      have : (decide (0 < (0 : ℕ)) && balancedFrom (0 - 1) rest) = true := hbal
      rw [Bool.and_eq_true] at this
      simpa using this.1
    | acq =>
      have hstep : runSub subInit (SubEv.acq :: rest) = runSub (acquire subInit) rest := rfl
      have hacq0 : acquire subInit =
          { hasPusher := true, handlersBound := true, hasChannel := true,
            count := 1, pending := 0, connects := 1, disconnects := 0,
            stateBinds := 1 } := by decide
      have hinv1 : subInv (acquire subInit) := by
        rw [hacq0]
        exact ⟨rfl, rfl, rfl, rfl, rfl, rfl, fun hc => absurd hc (by decide)⟩
      have hbal1 : balancedFrom (acquire subInit).count rest = true := by
        rw [hacq0]
        exact hbal
      have hrun := runSub_inv rest (acquire subInit) hbal1 hinv1
      have hcnt : (runSub (acquire subInit) rest).count = 0 := by
        have h2 := hrun.2
        rw [hacq0] at h2
        have ha : countAcq (SubEv.acq :: rest) = countAcq rest + 1 := rfl
        have hr : countRel (SubEv.acq :: rest) = countRel rest := rfl
        rw [ha] at hacq
        rw [hr] at hrel
        have h2s : (runSub (acquire subInit) rest).count + countRel rest =
            1 + countAcq rest := h2
        omega
      have hfin := fireAllTimers_teardown (runSub (acquire subInit) rest) hrun.1 hcnt
      obtain ⟨i1, i2, i3, i4, i5, i6, _⟩ := hrun.1
      rw [hstep]
      exact ⟨by rw [hfin.1, i4], by rw [hfin.2.1, i6], by rw [hfin.2.2, i5]⟩

/-- Counterexample to C3 as stated: with N = 0 (an empty, trivially
balanced interleaving) no connection is ever created, so "exactly one
broker connection" fails. -/
theorem claim3_counterexample :
    countAcq [] = countRel [] ∧ balancedFrom 0 [] = true ∧
    (fireAllTimers (runSub subInit [])).connects = 0 := by
  decide

/-- Witness for C3 at a concrete input: scenario E — three mounts followed
by three unmounts inside the grace window. -/
theorem claim3_witness :
    (balancedFrom 0 [SubEv.acq, SubEv.acq, SubEv.acq, SubEv.rel, SubEv.rel, SubEv.rel] = true ∧
      countAcq [SubEv.acq, SubEv.acq, SubEv.acq, SubEv.rel, SubEv.rel, SubEv.rel] = 3 ∧
      countRel [SubEv.acq, SubEv.acq, SubEv.acq, SubEv.rel, SubEv.rel, SubEv.rel] = 3 ∧
      0 < 3) ∧
    (fireAllTimers (runSub subInit
        [SubEv.acq, SubEv.acq, SubEv.acq, SubEv.rel, SubEv.rel, SubEv.rel])).connects = 1 ∧
    (fireAllTimers (runSub subInit
        [SubEv.acq, SubEv.acq, SubEv.acq, SubEv.rel, SubEv.rel, SubEv.rel])).disconnects = 1 ∧
    (fireAllTimers (runSub subInit
        [SubEv.acq, SubEv.acq, SubEv.acq, SubEv.rel, SubEv.rel, SubEv.rel])).stateBinds = 1 :=
  ⟨⟨by decide, by decide, by decide, by decide⟩,
    claim3_amended_refcount
      [SubEv.acq, SubEv.acq, SubEv.acq, SubEv.rel, SubEv.rel, SubEv.rel] 3
      (by decide) (by decide) (by decide) (by decide)⟩

/-! ## Chart seeding lemmas (claims C5, C6, C10) -/

lemma generateInitialData_length {K : Type} [LinearOrderedField K] (sin : K → K)
    (pi : K) (now : ℤ) (t : Token K) (n : ℕ) :
    (generateInitialData sin pi now t n).length = n := by
  simp [generateInitialData]

lemma generateInitialData_getD {K : Type} [LinearOrderedField K] (sin : K → K)
    (pi : K) (now : ℤ) (t : Token K) (n i : ℕ) (d : ChartDataPoint K) (h : i < n) :
    (generateInitialData sin pi now t n).getD i d =
      seedPoint sin pi now (t.price / (1 + t.priceChange24h / 100)) t.price
        (tokenSeedOf t.id t.symbol) n i := by
  have hl : i < (generateInitialData sin pi now t n).length := by
    rw [generateInitialData_length]
    exact h
  rw [List.getD_eq_getElem (generateInitialData sin pi now t n) d hl]
  simp [generateInitialData]

lemma generateInitialData_congr {K : Type} [LinearOrderedField K] (sin : K → K)
    (pi : K) (now : ℤ) (t1 t2 : Token K) (n : ℕ)
    (hseed : tokenSeedOf t1.id t1.symbol = tokenSeedOf t2.id t2.symbol)
    (hprice : t1.price = t2.price) (hchange : t1.priceChange24h = t2.priceChange24h) :
    generateInitialData sin pi now t1 n = generateInitialData sin pi now t2 n := by
  simp only [generateInitialData]
  rw [hseed, hprice, hchange]

/-- C5 (amended): seeding is deterministic — the generated history is a pure
function of the identifier, symbol, price and 24h change (given the same
clock reading), with no hidden randomness, so two calls on instruments
agreeing on those fields give byte-identical histories even if every other
field differs; a different identifier, however, is not guaranteed a
different history: identifiers deriving the same seed collide. -/
theorem claim5_amended_seed_determinism {K : Type} [LinearOrderedField K]
    (sin : K → K) (pi : K) (now : ℤ) (t1 t2 : Token K) (n : ℕ)
    (hid : t1.id = t2.id) (hsym : t1.symbol = t2.symbol)
    (hprice : t1.price = t2.price) (hchange : t1.priceChange24h = t2.priceChange24h) :
    generateInitialData sin pi now t1 n = generateInitialData sin pi now t2 n :=
  generateInitialData_congr sin pi now t1 t2 n (by rw [hid, hsym]) hprice hchange

/-- Witness for C5 at a concrete input: two rational-valued instruments with
the same identifier, symbol, price and change but different volumes and
market caps yield identical 24-point histories. -/
theorem claim5_witness :
    (({ id := "t1", symbol := "T", name := "a", price := 10, priceChange24h := 25, volume24h := 1, marketCap := 2, liquidity := 3, chain := "sol" } : Token ℚ).id = ({ id := "t1", symbol := "T", name := "b", price := 10, priceChange24h := 25, volume24h := 9, marketCap := 8, liquidity := 7, chain := "eth" } : Token ℚ).id) ∧
    generateInitialData (fun _ => (0 : ℚ)) 0 44 { id := "t1", symbol := "T", name := "a", price := 10, priceChange24h := 25, volume24h := 1, marketCap := 2, liquidity := 3, chain := "sol" } 24 =
      generateInitialData (fun _ => (0 : ℚ)) 0 44 { id := "t1", symbol := "T", name := "b", price := 10, priceChange24h := 25, volume24h := 9, marketCap := 8, liquidity := 7, chain := "eth" } 24 :=
  ⟨rfl,
    claim5_amended_seed_determinism (fun _ => (0 : ℚ)) 0 44 _ _ 24 rfl rfl rfl rfl⟩

/-- Counterexample to C5 as stated: two instruments with different
identifiers ("abc" and "xyz", neither of which parses as a number) but the
same symbol derive the same seed, so their histories are identical — a
different identifier does not yield a different history. -/
theorem claim5_counterexample :
    (({ id := "abc", symbol := "TOK", name := "a", price := 5, priceChange24h := 10, volume24h := 0, marketCap := 0, liquidity := 0, chain := "sol" } : Token ℝ).id ≠ ({ id := "xyz", symbol := "TOK", name := "a", price := 5, priceChange24h := 10, volume24h := 0, marketCap := 0, liquidity := 0, chain := "sol" } : Token ℝ).id) ∧
    generateInitialData Real.sin Real.pi 0 { id := "abc", symbol := "TOK", name := "a", price := 5, priceChange24h := 10, volume24h := 0, marketCap := 0, liquidity := 0, chain := "sol" } 24 =
      generateInitialData Real.sin Real.pi 0 { id := "xyz", symbol := "TOK", name := "a", price := 5, priceChange24h := 10, volume24h := 0, marketCap := 0, liquidity := 0, chain := "sol" } 24 := by
  constructor
  · decide
  · exact generateInitialData_congr Real.sin Real.pi 0 _ _ 24 (by decide) rfl rfl

lemma seedPoint_value_ge_half {K : Type} [LinearOrderedField K] (sin : K → K)
    (pi : K) (now : ℤ) (sp cp : K) (seed : ℤ) (n i : ℕ) :
    cp * (1/2) ≤ (seedPoint sin pi now sp cp seed n i).value :=
  le_max_right _ _

/-- C10: every point value produced by initial seeding is clamped from
below at half the instrument's current price, so for a non-negative price
no seeded chart value is negative. -/
theorem claim10_seed_clamped {K : Type} [LinearOrderedField K] (sin : K → K)
    (pi : K) (now : ℤ) (t : Token K) (n : ℕ) (hp : 0 ≤ t.price) (i : ℕ)
    (hi : i < n) (d : ChartDataPoint K) :
    t.price * (1/2) ≤ ((generateInitialData sin pi now t n).getD i d).value ∧
    0 ≤ ((generateInitialData sin pi now t n).getD i d).value := by
  rw [generateInitialData_getD sin pi now t n i d hi]
  have hge := seedPoint_value_ge_half sin pi now
    (t.price / (1 + t.priceChange24h / 100)) t.price (tokenSeedOf t.id t.symbol) n i
  refine ⟨hge, le_trans ?_ hge⟩
  nlinarith

/-- Witness for C10 at a concrete input: the first of three points seeded
for an instrument priced 10 is at least half the price and non-negative. -/
theorem claim10_witness :
    ((0 : ℚ) ≤ ({ id := "t1", symbol := "T", name := "a", price := 10, priceChange24h := 25, volume24h := 0, marketCap := 0, liquidity := 0, chain := "sol" } : Token ℚ).price ∧ 0 < 3) ∧
    (({ id := "t1", symbol := "T", name := "a", price := 10, priceChange24h := 25, volume24h := 0, marketCap := 0, liquidity := 0, chain := "sol" } : Token ℚ).price * (1/2) ≤
      ((generateInitialData (fun _ => (0 : ℚ)) 0 0 { id := "t1", symbol := "T", name := "a", price := 10, priceChange24h := 25, volume24h := 0, marketCap := 0, liquidity := 0, chain := "sol" } 3).getD 0 (ChartDataPoint.mk 0 0)).value ∧
      0 ≤ ((generateInitialData (fun _ => (0 : ℚ)) 0 0 { id := "t1", symbol := "T", name := "a", price := 10, priceChange24h := 25, volume24h := 0, marketCap := 0, liquidity := 0, chain := "sol" } 3).getD 0 (ChartDataPoint.mk 0 0)).value) := by
  refine ⟨⟨by norm_num, by norm_num⟩, ?_⟩
  exact claim10_seed_clamped (fun _ => (0 : ℚ)) 0 0 _ 3 (by norm_num) 0 (by norm_num)
    (ChartDataPoint.mk 0 0)

lemma wave_bound {K : Type} [LinearOrderedField K] (sin : K → K) (cp : K)
    (hs : ∀ x, |sin x| ≤ 1) (hcp : 0 ≤ cp) (a b : K) :
    |sin a * cp * (8/1000) + sin b * cp * (4/1000)| ≤ cp * (12/1000) := by
  have h1 : |sin a * cp * (8/1000)| ≤ cp * (8/1000) := by
    rw [abs_mul, abs_mul, abs_of_nonneg hcp,
      abs_of_nonneg (show (0:K) ≤ 8/1000 by norm_num)]
    have ha := hs a
    have h0 := abs_nonneg (sin a)
    nlinarith
  have h2 : |sin b * cp * (4/1000)| ≤ cp * (4/1000) := by
    rw [abs_mul, abs_mul, abs_of_nonneg hcp,
      abs_of_nonneg (show (0:K) ≤ 4/1000 by norm_num)]
    have hb := hs b
    have h0 := abs_nonneg (sin b)
    nlinarith
  calc |sin a * cp * (8/1000) + sin b * cp * (4/1000)|
      ≤ |sin a * cp * (8/1000)| + |sin b * cp * (4/1000)| := abs_add _ _
    _ ≤ cp * (8/1000) + cp * (4/1000) := add_le_add h1 h2
    _ = cp * (12/1000) := by ring

lemma seedPoint_first_wave {K : Type} [LinearOrderedField K] (sin : K → K)
    (pi : K) (now : ℤ) (sp cp : K) (seed : ℤ) (n : ℕ)
    (hs : ∀ x, |sin x| ≤ 1) (hcp : 0 ≤ cp) :
    ∃ w, (seedPoint sin pi now sp cp seed n 0).value = max (sp + w) (cp * (1/2)) ∧
      |w| ≤ cp * (12/1000) := by
  refine ⟨sin ((0:K) * pi * 2 + (seed:K)) * cp * (8/1000) +
      sin ((0:K) * pi * 4 + (seed:K) * 2) * cp * (4/1000), ?_,
    wave_bound sin cp hs hcp _ _⟩
  simp only [seedPoint]
  have hp0 : ((0:ℕ):K)/((n:K)-1) = 0 := by rw [Nat.cast_zero, zero_div]
  rw [hp0, if_pos (show (0:K) < 1/2 by norm_num)]
  congr 1
  ring

lemma seedPoint_last_wave {K : Type} [LinearOrderedField K] (sin : K → K)
    (pi : K) (now : ℤ) (sp cp : K) (seed : ℤ) (n : ℕ) (hn : 2 ≤ n)
    (hs : ∀ x, |sin x| ≤ 1) (hcp : 0 ≤ cp) :
    ∃ w, (seedPoint sin pi now sp cp seed n (n-1)).value = max (cp + w) (cp * (1/2)) ∧
      |w| ≤ cp * (12/1000) := by
  refine ⟨sin ((1:K) * pi * 2 + (seed:K)) * cp * (8/1000) +
      sin ((1:K) * pi * 4 + (seed:K) * 2) * cp * (4/1000), ?_,
    wave_bound sin cp hs hcp _ _⟩
  simp only [seedPoint]
  have h2K : (2:K) ≤ (n:K) := by exact_mod_cast hn
  have hne : (n:K) - 1 ≠ 0 := sub_ne_zero.mpr (ne_of_gt (by linarith))
  have hp1 : ((n-1:ℕ):K)/((n:K)-1) = 1 := by
    rw [Nat.cast_sub (by omega : 1 ≤ n), Nat.cast_one, div_self hne]
  rw [hp1, if_neg (show ¬ ((1:K) < 1/2) by norm_num)]
  congr 1
  ring

/-- C6 (amended): the seeded history is anchored up to the deterministic
sine oscillation — with N points (N ≥ 2), a bounded sine, a non-negative
price, and a start price comfortably above the half-price clamp, the last
point's value is within 1.2 percent of the current price and the first
point's value is within 1.2 percent of `price / (1 + change24h/100)`; the
anchors hold exactly only when the waves vanish. -/
theorem claim6_amended_anchored {K : Type} [LinearOrderedField K] (sin : K → K)
    (pi : K) (now : ℤ) (t : Token K) (n : ℕ) (hn : 2 ≤ n)
    (hs : ∀ x, |sin x| ≤ 1) (hp : 0 ≤ t.price)
    (hsp : t.price * (1/2) + t.price * (12/1000) ≤
      t.price / (1 + t.priceChange24h / 100)) :
    |((generateInitialData sin pi now t n).getD (n-1) (ChartDataPoint.mk 0 0)).value -
        t.price| ≤ t.price * (12/1000) ∧
    |((generateInitialData sin pi now t n).getD 0 (ChartDataPoint.mk 0 0)).value -
        t.price / (1 + t.priceChange24h / 100)| ≤ t.price * (12/1000) := by
  rw [generateInitialData_getD sin pi now t n (n-1) (ChartDataPoint.mk 0 0) (by omega),
    generateInitialData_getD sin pi now t n 0 (ChartDataPoint.mk 0 0) (by omega)]
  obtain ⟨w1, hw1, hb1⟩ := seedPoint_last_wave sin pi now
    (t.price / (1 + t.priceChange24h / 100)) t.price (tokenSeedOf t.id t.symbol) n hn hs hp
  obtain ⟨w2, hw2, hb2⟩ := seedPoint_first_wave sin pi now
    (t.price / (1 + t.priceChange24h / 100)) t.price (tokenSeedOf t.id t.symbol) n hs hp
  rw [hw1, hw2]
  have habs1 := abs_le.mp hb1
  have habs2 := abs_le.mp hb2
  constructor
  · rw [max_eq_left (by nlinarith)]
    have he : t.price + w1 - t.price = w1 := by ring
    rw [he]
    exact hb1
  · rw [max_eq_left (by nlinarith)]
    have he : t.price / (1 + t.priceChange24h / 100) + w2 -
        t.price / (1 + t.priceChange24h / 100) = w2 := by ring
    rw [he]
    exact hb2

/-- Witness for C6 at a concrete input: the rational model with a vanishing
sine, price 10 and 24h change 25 percent over 24 points. -/
theorem claim6_witness :
    ((2:ℕ) ≤ 24 ∧ (∀ x : ℚ, |(fun _ => (0:ℚ)) x| ≤ 1) ∧
      (0:ℚ) ≤ ({ id := "t1", symbol := "T", name := "a", price := 10, priceChange24h := 25, volume24h := 0, marketCap := 0, liquidity := 0, chain := "sol" } : Token ℚ).price ∧
      (10:ℚ) * (1/2) + 10 * (12/1000) ≤ 10 / (1 + 25 / 100)) ∧
    |((generateInitialData (fun _ => (0:ℚ)) 0 0 { id := "t1", symbol := "T", name := "a", price := 10, priceChange24h := 25, volume24h := 0, marketCap := 0, liquidity := 0, chain := "sol" } 24).getD (24-1) (ChartDataPoint.mk 0 0)).value - 10| ≤ 10 * (12/1000) ∧
    |((generateInitialData (fun _ => (0:ℚ)) 0 0 { id := "t1", symbol := "T", name := "a", price := 10, priceChange24h := 25, volume24h := 0, marketCap := 0, liquidity := 0, chain := "sol" } 24).getD 0 (ChartDataPoint.mk 0 0)).value - 10 / (1 + 25 / 100)| ≤ 10 * (12/1000) := by
  refine ⟨⟨by norm_num, fun x => by norm_num, by norm_num, by norm_num⟩, ?_⟩
  exact claim6_amended_anchored (fun _ => (0:ℚ)) 0 0 _ 24 (by norm_num)
    (fun x => by norm_num) (by norm_num) (by norm_num)

lemma seedPoint_last_value {K : Type} [LinearOrderedField K] (sin : K → K)
    (pi : K) (now : ℤ) (sp cp : K) (seed : ℤ) (n : ℕ) (hn : 2 ≤ n) :
    (seedPoint sin pi now sp cp seed n (n-1)).value =
      max (cp + (sin ((1:K) * pi * 2 + (seed:K)) * cp * (8/1000) +
                 sin ((1:K) * pi * 4 + (seed:K) * 2) * cp * (4/1000)))
        (cp * (1/2)) := by
  simp only [seedPoint]
  have h2K : (2:K) ≤ (n:K) := by exact_mod_cast hn
  have hne : (n:K) - 1 ≠ 0 := sub_ne_zero.mpr (ne_of_gt (by linarith))
  have hp1 : ((n-1:ℕ):K)/((n:K)-1) = 1 := by
    rw [Nat.cast_sub (by omega : 1 ≤ n), Nat.cast_one, div_self hne]
  rw [hp1, if_neg (show ¬ ((1:K) < 1/2) by norm_num)]
  congr 1
  ring

lemma seedPoint_value_at_one {K : Type} [LinearOrderedField K] (sin : K → K)
    (pi : K) (now : ℤ) (sp cp : K) (seed : ℤ) (n i : ℕ)
    (h1 : ((i:ℕ):K) = (n:K) - 1) (hne : (n:K) - 1 ≠ 0) :
    (seedPoint sin pi now sp cp seed n i).value =
      max (cp + (sin ((1:K) * pi * 2 + (seed:K)) * cp * (8/1000) +
                 sin ((1:K) * pi * 4 + (seed:K) * 2) * cp * (4/1000)))
        (cp * (1/2)) := by
  simp only [seedPoint]
  rw [h1, div_self hne, if_neg (show ¬ ((1:K) < 1/2) by norm_num)]
  congr 1
  ring

/-- Counterexample to C6 as stated: for the scenario-C instrument (price 10,
24h change 25 percent, 24 points) the last seeded value is not exactly the
current price — the sine oscillation keeps it away from 10, because sin 84
is not zero (84 being a nonzero integer and pi irrational). -/
theorem claim6_counterexample :
    ((generateInitialData Real.sin Real.pi 0 { id := "t1", symbol := "T", name := "a", price := 10, priceChange24h := 25, volume24h := 0, marketCap := 0, liquidity := 0, chain := "sol" } 24).getD 23 (ChartDataPoint.mk 0 0)).value ≠ 10 := by
  rw [generateInitialData_getD Real.sin Real.pi 0 _ 24 23 (ChartDataPoint.mk 0 0)
    (by norm_num)]
  show (seedPoint Real.sin Real.pi 0 ((10:ℝ) / (1 + 25 / 100)) 10
    (tokenSeedOf ("t1") ("T")) 24 23).value ≠ 10
  rw [show tokenSeedOf ("t1") ("T") = 84 from by decide]
  rw [seedPoint_value_at_one Real.sin Real.pi 0 ((10:ℝ)/(1+25/100)) 10 84 24 23
    (by norm_num) (by norm_num)]
  push_cast
  have hsin : Real.sin (84:ℝ) ≠ 0 := by
    intro h0
    rw [Real.sin_eq_zero_iff] at h0
    obtain ⟨m, hm⟩ := h0
    have hm0 : m ≠ 0 := by
      rintro rfl
      norm_num at hm
    have hmR : ((m:ℝ)) ≠ 0 := Int.cast_ne_zero.mpr hm0
    have hrat : ((84 / m : ℚ) : ℝ) = Real.pi := by
      push_cast
      rw [div_eq_iff hmR]
      linear_combination -hm
    exact irrational_pi ⟨84 / m, hrat⟩
  have harg1 : (1:ℝ) * Real.pi * 2 + 84 = 84 + 2 * Real.pi := by ring
  have harg2 : (1:ℝ) * Real.pi * 4 + 84 * 2 = (168 + 2 * Real.pi) + 2 * Real.pi := by
    ring
  rw [harg1, harg2, Real.sin_add_two_pi, Real.sin_add_two_pi, Real.sin_add_two_pi,
    show (168:ℝ) = 2 * 84 from by norm_num, Real.sin_two_mul]
  have hsb := Real.sin_le_one (84:ℝ)
  have hsb2 := Real.neg_one_le_sin (84:ℝ)
  have hcb := Real.cos_le_one (84:ℝ)
  have hcb2 := Real.neg_one_le_cos (84:ℝ)
  have hmax : max ((10:ℝ) + (Real.sin 84 * 10 * (8/1000) +
      2 * Real.sin 84 * Real.cos 84 * 10 * (4/1000))) (10 * (1/2)) =
      10 + (Real.sin 84 * 10 * (8/1000) +
        2 * Real.sin 84 * Real.cos 84 * 10 * (4/1000)) := by
    apply max_eq_left
    nlinarith
  rw [hmax]
  intro heq
  have hzero : Real.sin 84 * (1 + Real.cos 84) = 0 := by
    have hfact : Real.sin 84 * 10 * (8/1000) +
        2 * Real.sin 84 * Real.cos 84 * 10 * (4/1000) =
        (2/25) * (Real.sin 84 * (1 + Real.cos 84)) := by ring
    nlinarith [heq, hfact]
  rcases mul_eq_zero.mp hzero with h1 | h2
  · exact hsin h1
  · have hc : Real.cos (84:ℝ) = -1 := by linarith
    have hsq := Real.sin_sq_add_cos_sq (84:ℝ)
    rw [hc] at hsq
    have hs0 : Real.sin (84:ℝ) ^ 2 = 0 := by nlinarith
    exact hsin (by
      have := sq_eq_zero_iff.mp hs0
      exact this)
